import Mathlib

/-!
Verification development for the Unreal Log Viewer core (streaming ingestion,
bounded storage, filter evaluation, pause/resume consistency).

The TypeScript sources are embedded shallowly:
JavaScript strings are modelled as `List Char`, numbers as `Nat`/`Int`
(all the arithmetic the code performs stays in integer range), and the
stateful provider/pause-manager classes as explicit state records with
pure transition functions returning the new state together with the list
of messages posted to the webview sink.
-/

namespace UnrealLog


/-- Model of a JavaScript string: a list of (UTF-16-ish) characters. -/
abbrev JStr := List Char

/-- Model of `String.prototype.trim`: drop whitespace from both ends. -/
def jsTrim (s : JStr) : JStr :=
  ((s.dropWhile Char.isWhitespace).reverse.dropWhile Char.isWhitespace).reverse

/-- Model of `str.split(',')`: split on commas, keeping empty pieces
(`"a,,b" -> ["a","","b"]`, `"" -> [""]`). -/
def splitComma : JStr → List JStr
  | [] => [[]]
  | c :: t =>
    let r := splitComma t
    if c = ',' then [] :: r
    else
      match r with
      | [] => [[c]]
      | h :: t2 => (c :: h) :: t2

/-- Model of `str.toUpperCase()` (the code only ever compares ASCII). -/
def toUpperJ (s : JStr) : JStr := s.map Char.toUpper

/-- Model of `hay.includes(needle)`: substring containment. -/
def containsSub (needle : JStr) : JStr → Bool
  | [] => needle.isEmpty
  | c :: t => needle.isPrefixOf (c :: t) || containsSub needle t

/-- Model of `str.startsWith(c)` for a single-character pattern. -/
def jsStartsWith (s : JStr) (c : Char) : Bool :=
  match s with
  | [] => false
  | a :: _ => a = c

/-- Term list of a filter string, from `logFilter.ts`:
`split(',')`, `trim` each piece, drop empty pieces. -/
def parseTerms (f : JStr) : List JStr :=
  ((splitComma f).map jsTrim).filter (· ≠ [])

/-- Exclusion terms: terms starting with `!`, bang stripped, upper-cased,
empties dropped (`logFilter.ts`). -/
def exclTerms (terms : List JStr) : List JStr :=
  ((terms.filter (fun t => jsStartsWith t '!')).map (fun t => toUpperJ (t.drop 1))).filter (· ≠ [])

/-- Inclusion terms: the remaining terms, upper-cased, empties dropped
(`logFilter.ts`). -/
def inclTerms (terms : List JStr) : List JStr :=
  ((terms.filter (fun t => !(jsStartsWith t '!'))).map toUpperJ).filter (· ≠ [])

/-- The fixed severity order used by the level filter
(`LOG_LEVEL_ORDER` in `logFilter.ts` / `UnrealLogViewerProvider.ts`). -/
def LOG_LEVEL_ORDER : List JStr :=
  ["VERYVERBOSE".toList, "VERBOSE".toList, "LOG".toList, "DISPLAY".toList,
   "WARNING".toList, "ERROR".toList, "FATAL".toList]

/-- Model of `LOG_LEVEL_ORDER.indexOf(s)`, with `none` for `-1`. -/
def levelIndex (s : JStr) : Option Nat :=
  LOG_LEVEL_ORDER.findIdx? (fun t => decide (t = s))

/-- One inclusion term of the level filter matched against the (trimmed,
upper-cased) record severity: threshold mode for terms starting with `>`,
exact equality otherwise (`logFilter.ts` lines 59-73). -/
def levelIncMatches (logLev inc : JStr) : Bool :=
  if jsStartsWith inc '>' then
    let target := inc.drop 1
    match levelIndex target, levelIndex logLev with
    | some ti, some li => decide (ti ≤ li)
    | _, _ => false
  else decide (logLev = inc)

/-- The level-filter block of `passesLogFilters` (`logFilter.ts` lines 42-81). -/
def passesLevel (levelFilter logLevel : JStr) : Bool :=
  let f := jsTrim levelFilter
  if f = [] then true
  else
    let logLev := toUpperJ (jsTrim logLevel)
    let terms := parseTerms f
    let excl := exclTerms terms
    let incl := inclTerms terms
    if excl.any (fun e => decide (logLev = e)) then false
    else if incl.isEmpty then true
    else incl.any (fun inc => levelIncMatches logLev inc)

/-- The category/message-filter blocks of `passesLogFilters`
(substring semantics, `logFilter.ts` lines 82-133). -/
def passesSubstr (filter value : JStr) : Bool :=
  let f := jsTrim filter
  if f = [] then true
  else
    let valUpper := toUpperJ value
    let terms := parseTerms f
    let excl := exclTerms terms
    let incl := inclTerms terms
    if excl.any (fun e => containsSub e valUpper) then false
    else if incl.isEmpty then true
    else incl.any (fun i => containsSub i valUpper)

/-- The record type of `logTypes.ts` (`UnrealLogEntry`). -/
structure UnrealLogEntry where
  date : JStr
  level : JStr
  category : JStr
  message : JStr
  source : Option JStr := none
deriving DecidableEq

/-- The filter options of `logFilter.ts` (`LogFilterOptions`); the optional
`logLevelOrder` parameter is always the fixed default list at every call
site, so it is embedded as the constant `LOG_LEVEL_ORDER`. -/
structure LogFilterOptions where
  levelFilter : JStr
  categoryFilter : JStr
  messageFilter : JStr
deriving DecidableEq

/-- Model of `passesLogFilters` (`logFilter.ts`): conjunction of the three
per-field results. -/
def passesLogFilters (log : UnrealLogEntry) (options : LogFilterOptions) : Bool :=
  passesLevel options.levelFilter log.level &&
  passesSubstr options.categoryFilter log.category &&
  passesSubstr options.messageFilter log.message

/-- The record's (trimmed, upper-cased) severity equals some exclusion term
of the severity filter. -/
def levelExclHit (opts : LogFilterOptions) (log : UnrealLogEntry) : Prop :=
  ∃ t ∈ exclTerms (parseTerms (jsTrim opts.levelFilter)), toUpperJ (jsTrim log.level) = t

/-- The record's severity matches some inclusion term of the severity filter
(exact or threshold). -/
def levelInclHit (opts : LogFilterOptions) (log : UnrealLogEntry) : Prop :=
  ∃ t ∈ inclTerms (parseTerms (jsTrim opts.levelFilter)),
    levelIncMatches (toUpperJ (jsTrim log.level)) t = true

/-- The record's (upper-cased) category contains some exclusion term of the
category filter as a substring. -/
def categoryExclHit (opts : LogFilterOptions) (log : UnrealLogEntry) : Prop :=
  ∃ t ∈ exclTerms (parseTerms (jsTrim opts.categoryFilter)),
    containsSub t (toUpperJ log.category) = true

/-- The record's category contains some inclusion term of the category
filter as a substring. -/
def categoryInclHit (opts : LogFilterOptions) (log : UnrealLogEntry) : Prop :=
  ∃ t ∈ inclTerms (parseTerms (jsTrim opts.categoryFilter)),
    containsSub t (toUpperJ log.category) = true

/-- The record's (upper-cased) message contains some exclusion term of the
message filter as a substring. -/
def messageExclHit (opts : LogFilterOptions) (log : UnrealLogEntry) : Prop :=
  ∃ t ∈ exclTerms (parseTerms (jsTrim opts.messageFilter)),
    containsSub t (toUpperJ log.message) = true

/-- The record's message contains some inclusion term of the message filter
as a substring. -/
def messageInclHit (opts : LogFilterOptions) (log : UnrealLogEntry) : Prop :=
  ∃ t ∈ inclTerms (parseTerms (jsTrim opts.messageFilter)),
    containsSub t (toUpperJ log.message) = true

/-- Model of `str.padStart(n, '0')`. -/
def padStartZeros (s : JStr) (n : Nat) : JStr :=
  List.replicate (n - s.length) '0' ++ s

/-- Decimal digits of a natural number, as `Number.prototype.toString`
produces for the non-negative integers this code formats. -/
def natDigits (n : Nat) : JStr := (Nat.repr n).toList

/-- Input normalization of `_formatDate` / `DateFormatter.formatDate`:
drop a trailing `Z` zone marker if present, else keep the string. -/
def stripTrailingZ (s : JStr) : JStr :=
  if s.getLast? = some 'Z' then s.dropLast else s

/-- Model of `DateFormatter.formatDate` / `UnrealLogViewerProvider._formatDate`.
The JavaScript `Date` parser and the absolute-mode local-wall-clock rendering
depend on the host clock/timezone, so they enter as parameters `parseLocal`
(milliseconds value of `new Date(str).getTime()`) and `absRender`; everything
else — the `Z` stripping, the `max(0, diff)` clamp and the `+HH:MM:SS.mmm`
construction — is translated directly from the source. -/
def formatDate (useRelative : Bool) (parseLocal : JStr → Int) (absRender : Int → JStr)
    (lastClearTime : Int) (orig : JStr) : JStr :=
  let toParse := stripTrailingZ orig
  let t := parseLocal toParse
  if useRelative then
    let diffMs := (max 0 (t - lastClearTime)).toNat
    let milliseconds := padStartZeros (natDigits (diffMs % 1000)) 3
    let totalSeconds := diffMs / 1000
    let seconds := padStartZeros (natDigits (totalSeconds % 60)) 2
    let totalMinutes := totalSeconds / 60
    let minutes := padStartZeros (natDigits (totalMinutes % 60)) 2
    let hours := padStartZeros (natDigits (totalMinutes / 60)) 2
    '+' :: (hours ++ ':' :: (minutes ++ ':' :: (seconds ++ '.' :: milliseconds)))
  else absRender t

/-- State of `PauseManager` (`PauseManager.ts`): pause flag, snapshot of the
logs displayed at pause time, and the frozen shown count. -/
structure PMState where
  isPaused : Bool
  displayedLogsOnPause : List UnrealLogEntry
  lastShownCountWhenPaused : Option Nat
deriving DecidableEq

/-- Initial `PauseManager` state: not paused, empty snapshot, no count. -/
def PMState.initial : PMState := ⟨false, [], none⟩

/-- Model of `PauseManager.getDisplayedLogs`: the stored snapshot when
paused, an empty array otherwise. -/
def pmGetDisplayedLogs (s : PMState) : List UnrealLogEntry :=
  if s.isPaused then s.displayedLogsOnPause else []

/-- Model of `PauseManager.getLastShownCount`: the stored count when paused,
`undefined` otherwise. -/
def pmGetLastShownCount (s : PMState) : Option Nat :=
  if s.isPaused then s.lastShownCountWhenPaused else none

/-- Model of `PauseManager.toggleState`. The optional capture callback is
modelled by the list it would return (`none` for an absent callback). -/
def pmToggleState (capture : Option (List UnrealLogEntry)) (s : PMState) : PMState :=
  if !s.isPaused then
    match capture with
    | some ls => ⟨true, ls, some ls.length⟩
    | none => ⟨true, [], some 0⟩
  else ⟨false, [], none⟩

/-- Model of `PauseManager.updateLastShownCountIfPaused`. -/
def pmUpdateLastShownCountIfPaused (count : Nat) (s : PMState) : PMState :=
  if s.isPaused then { s with lastShownCountWhenPaused := some count } else s

/-- Model of `PauseManager.resetForWebviewClear`. -/
def pmResetForWebviewClear (s : PMState) : PMState :=
  if s.isPaused then
    { s with lastShownCountWhenPaused := some 0, displayedLogsOnPause := [] }
  else s

/-- One public mutating operation of `PauseManager`. -/
inductive PMOp where
  | toggle (capture : Option (List UnrealLogEntry))
  | updateCount (count : Nat)
  | resetClear
deriving DecidableEq

/-- Apply one `PauseManager` operation to a state. -/
def pmApply (s : PMState) : PMOp → PMState
  | .toggle c => pmToggleState c s
  | .updateCount n => pmUpdateLastShownCountIfPaused n s
  | .resetClear => pmResetForWebviewClear s

/-- A message posted to the webview sink (the `postMessage` commands of
`UnrealLogViewerProvider.ts` that carry log/count/filter state; the
appearance passthrough messages are outside the claims' scope). -/
inductive SinkMsg where
  | setLogs (logs : List UnrealLogEntry)
  | addLogEntry (entry : UnrealLogEntry)
  | removeOldestLogs (count : Nat)
  | updateCounts (shown total : Nat)
  | updateFilterInputs (levelFilter categoryFilter messageFilter : JStr)
  | updatePauseButton (isPaused : Bool)
deriving DecidableEq

/-- Mutable state of `UnrealLogViewerProvider`. The `_view` optional is
modelled by the flag `hasView`. -/
structure ProviderState where
  logs : List UnrealLogEntry
  levelFilter : JStr
  categoryFilter : JStr
  messageFilter : JStr
  lastClearTime : Int
  isPaused : Bool
  lastShownCountWhenPaused : Option Nat
  displayedLogsOnPause : List UnrealLogEntry
  hasView : Bool
deriving DecidableEq

/-- Per-operation environment of the provider: the configuration values it
reads (`maxLogMessages`, `useRelativeTimestamps`), the host `Date` parser
and absolute renderer, and the current wall clock (`new Date()` as epoch
milliseconds `now` and as ISO string `nowIso`). -/
structure ProviderEnv where
  maxLogsSetting : Nat
  useRelativeTimestamps : Bool
  parseLocal : JStr → Int
  absRender : Int → JStr
  nowIso : JStr
  now : Int

/-- The provider's current filter spec as `LogFilterOptions`. -/
def ProviderState.filterOptions (s : ProviderState) : LogFilterOptions :=
  ⟨s.levelFilter, s.categoryFilter, s.messageFilter⟩

/-- Model of `UnrealLogViewerProvider._passesFilters`. -/
def providerPasses (s : ProviderState) (log : UnrealLogEntry) : Bool :=
  passesLogFilters log s.filterOptions

/-- A log entry as sent to the webview: date rendered through
`_formatDate` and empty-string source coerced to `undefined`
(`log.source || undefined`). -/
def formatEntry (env : ProviderEnv) (s : ProviderState) (log : UnrealLogEntry) : UnrealLogEntry :=
  { log with
    date := formatDate env.useRelativeTimestamps env.parseLocal env.absRender s.lastClearTime log.date,
    source := match log.source with
      | some x => if x = [] then none else some x
      | none => none }

/-- Model of `UnrealLogViewerProvider._updateCountsInWebview`: computes the
shown/total counts, caches or clears `_lastShownCountWhenPaused`, and posts
one `updateCounts` message when a view is attached. -/
def updateCountsInWebview (s : ProviderState) : ProviderState × List SinkMsg :=
  if s.hasView then
    let total := s.logs.length
    if s.isPaused then
      match s.lastShownCountWhenPaused with
      | some n => (s, [SinkMsg.updateCounts n total])
      | none =>
        let n := (s.logs.filter (fun log => providerPasses s log)).length
        ({ s with lastShownCountWhenPaused := some n }, [SinkMsg.updateCounts n total])
    else
      ({ s with lastShownCountWhenPaused := none },
        [SinkMsg.updateCounts (s.logs.filter (fun log => providerPasses s log)).length total])
  else (s, [])

/-- The capacity-pruning block shared verbatim by `LogStore.addLog` and
`UnrealLogViewerProvider.addLog`: if one more record would exceed the
capacity, splice off the oldest `max(1, floor(max/10))` records. The
JavaScript `Math.floor(effectiveMaxLogs * 0.1)` is modelled as `max / 10`
(exact for every capacity a store can reach). Returns the remaining list,
the `pruned` flag and `prunedCount`. -/
def pruneForCapacity (logs : List UnrealLogEntry) (effectiveMaxLogs : Nat) :
    List UnrealLogEntry × Bool × Nat :=
  if logs.length + 1 > effectiveMaxLogs then
    let numToPrune := max 1 (effectiveMaxLogs / 10)
    let prunedCount := min numToPrune logs.length
    (logs.drop numToPrune, decide (prunedCount > 0), prunedCount)
  else (logs, false, 0)

/-- Result record of `LogStore.addLog` (`PruneInfo` in `LogStore.ts`). -/
structure PruneInfo where
  pruned : Bool
  prunedCount : Nat
  maxLogs : Nat
deriving DecidableEq

/-- Model of `LogStore.addLog` (`LogStore.ts`): prune if over capacity,
append, report. The store's capacity is `max(setting, 100)` per
`_getMaxLogMessagesFromConfig`. -/
def storeAddLog (logs : List UnrealLogEntry) (maxLogsSetting : Nat) (log : UnrealLogEntry) :
    List UnrealLogEntry × PruneInfo :=
  let maxLogMessages := max maxLogsSetting 100
  let r := pruneForCapacity logs maxLogMessages
  (r.1 ++ [log], ⟨r.2.1, r.2.2, maxLogMessages⟩)

/-- The synthetic eviction-notice record built in
`UnrealLogViewerProvider.addLog` (severity `WARNING`, category
`LogViewerInternal`). -/
def pruneEntry (env : ProviderEnv) (prunedCount effectiveMaxLogs : Nat) : UnrealLogEntry :=
  { date := env.nowIso,
    level := "WARNING".toList,
    category := "LogViewerInternal".toList,
    message := "Pruned ".toList ++ natDigits prunedCount ++
      " oldest log message(s) to maintain max limit of ".toList ++
      natDigits effectiveMaxLogs ++ ".".toList,
    source := none }

/-- Model of `UnrealLogViewerProvider.addLog`: prune if over capacity,
append the new record; when live with a view attached additionally store
the eviction notice, post `removeOldestLogs`/`addLogEntry` messages and
refresh the counts; when paused (or with no view) only the counts are
refreshed (or nothing is posted). -/
def providerAddLog (env : ProviderEnv) (s : ProviderState) (log : UnrealLogEntry) :
    ProviderState × List SinkMsg :=
  let effectiveMaxLogs := max env.maxLogsSetting 100
  let r := pruneForCapacity s.logs effectiveMaxLogs
  let pruned := r.2.1
  let prunedCount := r.2.2
  let s1 := { s with logs := r.1 ++ [log] }
  if !s.isPaused && s.hasView then
    if pruned then
      let pe := pruneEntry env prunedCount effectiveMaxLogs
      let s2 := { s1 with logs := s1.logs ++ [pe] }
      let m1 : List SinkMsg :=
        SinkMsg.removeOldestLogs prunedCount ::
        ((if providerPasses s2 pe then [SinkMsg.addLogEntry (formatEntry env s2 pe)] else []) ++
         (if providerPasses s2 log then [SinkMsg.addLogEntry (formatEntry env s2 log)] else []))
      let r2 := updateCountsInWebview s2
      (r2.1, m1 ++ r2.2)
    else
      let m1 := if providerPasses s1 log then [SinkMsg.addLogEntry (formatEntry env s1 log)] else []
      let r2 := updateCountsInWebview s1
      (r2.1, m1 ++ r2.2)
  else if s.hasView then
    let r2 := updateCountsInWebview s1
    (r2.1, r2.2)
  else (s1, [])

/-- Model of `UnrealLogViewerProvider.clearLogs` (the full clear-logs
command): empty the store, reset the three filter strings, reset the epoch,
and when a view is attached post the empty full-replace, the filter-input
reset and the counts. -/
def providerClearLogs (env : ProviderEnv) (s : ProviderState) :
    ProviderState × List SinkMsg :=
  let s1 := { s with logs := [], levelFilter := [], categoryFilter := [], messageFilter := [],
                     lastClearTime := env.now }
  if s1.hasView then
    let r2 := updateCountsInWebview s1
    (r2.1, SinkMsg.setLogs [] :: SinkMsg.updateFilterInputs [] [] [] :: r2.2)
  else (s1, [])

/-- Model of `UnrealLogViewerProvider.handleWebviewClear` (the display-only
clear): empty the store, reset the epoch, zero the cached shown count, and
when a view is attached post the empty full-replace and the counts. The
filter strings and the pause snapshot list are left untouched. -/
def providerWebviewClear (env : ProviderEnv) (s : ProviderState) :
    ProviderState × List SinkMsg :=
  let s1 := { s with logs := [], lastClearTime := env.now, lastShownCountWhenPaused := some 0 }
  if s1.hasView then
    let r2 := updateCountsInWebview s1
    (r2.1, SinkMsg.setLogs [] :: r2.2)
  else (s1, [])

/-- Model of `UnrealLogViewerProvider._sendFilteredLogsToWebview`. -/
def sendFilteredLogsToWebview (env : ProviderEnv) (s : ProviderState) :
    ProviderState × List SinkMsg :=
  if s.hasView then
    let fl := (s.logs.filter (fun log => providerPasses s log)).map (formatEntry env s)
    let r2 := updateCountsInWebview s
    (r2.1, SinkMsg.setLogs fl :: r2.2)
  else (s, [])

/-- Model of `UnrealLogViewerProvider.togglePauseState`: flip the flag; on
pausing capture the filtered+formatted snapshot and its length, on resuming
clear them; post the pause-button update, then either a fresh full view
(resume) or refreshed counts (pause). -/
def providerTogglePause (env : ProviderEnv) (s : ProviderState) :
    ProviderState × List SinkMsg :=
  let s1 :=
    if !s.isPaused then
      let snap := (s.logs.filter (fun log => providerPasses s log)).map (formatEntry env s)
      { s with isPaused := true, displayedLogsOnPause := snap,
               lastShownCountWhenPaused := some snap.length }
    else
      { s with isPaused := false, displayedLogsOnPause := [],
               lastShownCountWhenPaused := none }
  let m0 := if s1.hasView then [SinkMsg.updatePauseButton s1.isPaused] else []
  if !s1.isPaused then
    let r2 := sendFilteredLogsToWebview env s1
    (r2.1, m0 ++ r2.2)
  else if s1.hasView then
    let r2 := updateCountsInWebview s1
    (r2.1, m0 ++ r2.2)
  else (s1, m0)

/-- Model of `UnrealLogViewerProvider.getDisplayedLogEntriesForTest`: the
frozen snapshot while paused, otherwise the filtered and formatted store. -/
def getDisplayedLogEntriesForTest (env : ProviderEnv) (s : ProviderState) :
    List UnrealLogEntry :=
  if s.isPaused then s.displayedLogsOnPause
  else (s.logs.filter (fun log => providerPasses s log)).map (formatEntry env s)

/-- Concrete environment used by the closed counterexamples: capacity
setting 100, absolute timestamps, trivial host clock. -/
def envC : ProviderEnv := ⟨100, false, fun _ => 0, fun _ => [], "now".toList, 0⟩

/-- A plain concrete record. -/
def recA : UnrealLogEntry := ⟨"d".toList, "LOG".toList, "Cat".toList, "m".toList, none⟩

/-- A second, distinct concrete record. -/
def recB : UnrealLogEntry := ⟨"d2".toList, "LOG".toList, "Cat".toList, "n".toList, none⟩

/-- A live provider with a view attached and no filters whose store is
exactly at capacity 100. -/
def liveFull : ProviderState :=
  ⟨List.replicate 100 recA, [], [], [], 0, false, none, [], true⟩

/-- The state reached from `liveFull` by the pause toggle: paused with the
100-record snapshot and frozen shown count 100. -/
def pausedFull : ProviderState := (providerTogglePause envC liveFull).1

/-- A live provider with one stored record on severity filter `LOG`. -/
def liveOne : ProviderState :=
  ⟨[recA], "LOG".toList, [], [], 5, false, none, [], true⟩

/-- The state reached from `liveOne` by the pause toggle: paused with the
one-record snapshot and frozen shown count 1. -/
def pausedSnap : ProviderState := (providerTogglePause envC liveOne).1

/-- The record of the `pausedSnap` snapshot: `recA` with its date rendered
for display. -/
def recAShown : UnrealLogEntry := formatEntry envC liveOne recA

/-- Predicate of the `buffer.indexOf('\x7b')` search: characters before
the first opening brace. -/
def notOpenBrace (c : Char) : Bool := c != '\x7b'

/-- One character step of the brace-matching scan in the socket data
handler (`LogServerManager.startNewServerInstance`): tracks brace depth, a
quoted-string flag and a backslash-escape flag; returns `none` when the
character is the matching closing brace (depth would reach 0), otherwise
the updated state. -/
def scanStep (c : Char) (depth : Int) (inString escape : Bool) :
    Option (Int × Bool × Bool) :=
  if inString then
    if escape then some (depth, true, false)
    else if c = '\\' then some (depth, true, true)
    else if c = '\"' then some (depth, false, false)
    else some (depth, true, false)
  else
    if c = '\"' then some (depth, true, escape)
    else if c = '\x7b' then some (depth + 1, false, escape)
    else if c = '\x7d' then
      if depth = 1 then none
      else some (depth - 1, false, escape)
    else some (depth, false, escape)

/-- The inner `for` loop of the data handler: scan for the index (relative
to the scan start) of the brace that closes the frame, `none` when the
buffer ends first. -/
def scanClose : List Char → Int → Bool → Bool → Option Nat
  | [], _, _, _ => none
  | c :: rest, depth, inString, escape =>
    match scanStep c depth inString escape with
    | none => some 0
    | some (d, i, e) => (scanClose rest d i e).map (· + 1)

/-- One iteration of the data handler's `while` loop: find the first
opening brace, scan for its matching close; on success return the frame
slice and the remaining buffer (everything before the frame start is
consumed too), on failure `none` (the handler breaks, leaving the buffer
untouched). -/
def findFrame (buffer : List Char) : Option (List Char × List Char) :=
  match scanClose (buffer.dropWhile notOpenBrace) 0 false false with
  | some j =>
    some ((buffer.dropWhile notOpenBrace).take (j + 1),
          (buffer.dropWhile notOpenBrace).drop (j + 1))
  | none => none

/-- Fuel-driven extraction loop; the fuel only serves termination and any
amount at least the buffer length is enough. -/
def extractFramesGo : Nat → List Char → List (List Char) × List Char
  | 0, buffer => ([], buffer)
  | fuel + 1, buffer =>
    match findFrame buffer with
    | none => ([], buffer)
    | some (f, rest) =>
      (f :: (extractFramesGo fuel rest).1, (extractFramesGo fuel rest).2)

/-- The data handler's `while` loop run to quiescence on the current
buffer: the list of extracted candidate frames and the leftover buffer. -/
def extractFrames (buffer : List Char) : List (List Char) × List Char :=
  extractFramesGo (buffer.length + 1) buffer

/-- One `data` event of the socket handler: append the chunk to the
leftover buffer and run the extraction loop, accumulating frames. -/
def feedChunk (acc : List (List Char) × List Char) (chunk : List Char) :
    List (List Char) × List Char :=
  let r := extractFrames (acc.2 ++ chunk)
  (acc.1 ++ r.1, r.2)

/-- JSON whitespace skipping. -/
def skipWs (cs : List Char) : List Char := cs.dropWhile Char.isWhitespace

/-- JSON string escape table (`\uXXXX` sequences are outside the modelled
fragment). -/
def parseEscape (c : Char) : Option Char :=
  if c = '\"' then some '\"'
  else if c = '\\' then some '\\'
  else if c = '/' then some '/'
  else if c = 'b' then some '\x08'
  else if c = 'f' then some '\x0c'
  else if c = 'n' then some '\n'
  else if c = 'r' then some '\r'
  else if c = 't' then some '\t'
  else none

/-- Body of a JSON string literal (after the opening quote): the decoded
content and the remainder after the closing quote. -/
def parseJStringBody : List Char → Option (List Char × List Char)
  | [] => none
  | c :: rest =>
    if c = '\"' then some ([], rest)
    else if c = '\\' then
      match rest with
      | [] => none
      | e :: rest2 =>
        match parseEscape e with
        | none => none
        | some ch => (parseJStringBody rest2).map (fun p => (ch :: p.1, p.2))
    else (parseJStringBody rest).map (fun p => (c :: p.1, p.2))

/-- Member list of a flat JSON object with string values, starting right at
a key's opening quote; returns the members and the remainder after the
closing brace. The fuel only serves termination. -/
def parseMembers : Nat → List Char → Option (List (List Char × List Char) × List Char)
  | 0, _ => none
  | fuel + 1, cs =>
    match cs with
    | '\"' :: rest =>
      match parseJStringBody rest with
      | none => none
      | some (key, rest2) =>
        match skipWs rest2 with
        | ':' :: rest4 =>
          match skipWs rest4 with
          | '\"' :: rest6 =>
            match parseJStringBody rest6 with
            | none => none
            | some (value, rest7) =>
              match skipWs rest7 with
              | ',' :: rest9 =>
                (parseMembers fuel (skipWs rest9)).map
                  (fun p => ((key, value) :: p.1, p.2))
              | '\x7d' :: rest9 => some ([(key, value)], rest9)
              | _ => none
          | _ => none
        | _ => none
    | _ => none

/-- Model of `JSON.parse` on the ingestion wire format: a flat JSON object
whose values are strings (the shape every frame of this protocol has);
`some` is the parsed key/value list, `none` is a thrown `SyntaxError`.
Nested values, numbers, booleans and `\uXXXX` escapes are outside the
modelled fragment and rejected. -/
def parseJson (cs : List Char) : Option (List (List Char × List Char)) :=
  match skipWs cs with
  | '\x7b' :: rest =>
    match skipWs rest with
    | '\x7d' :: rest2 => if (skipWs rest2).isEmpty then some [] else none
    | rest1 =>
      match parseMembers (cs.length + 1) rest1 with
      | some (kvs, rest2) => if (skipWs rest2).isEmpty then some kvs else none
      | none => none
  | _ => none

/-- Last-wins key lookup, as `JSON.parse` resolves duplicate keys. -/
def lookupKV (k : List Char) (l : List (List Char × List Char)) : Option (List Char) :=
  l.foldl (fun acc p => if p.1 = k then some p.2 else acc) none

/-- The object `JSON.parse` hands to `addLogCallback`, viewed through the
`UnrealLogEntry` fields: each field is present or absent — the TypeScript
cast `const log: UnrealLogEntry = JSON.parse(jsonStr)` performs no check. -/
structure DecodedEntry where
  date : Option (List Char)
  level : Option (List Char)
  category : Option (List Char)
  message : Option (List Char)
  source : Option (List Char)
deriving DecidableEq

/-- Decoding of one candidate frame (`LogServerManager` data handler,
`JSON.parse(jsonStr)` followed by the uncheckd cast). -/
def decodeFrame (frame : List Char) : Option DecodedEntry :=
  (parseJson frame).map (fun kvs =>
    ⟨lookupKV "date".toList kvs, lookupKV "level".toList kvs,
     lookupKV "category".toList kvs, lookupKV "message".toList kvs,
     lookupKV "source".toList kvs⟩)

/-- The `try/catch` around `JSON.parse` in the data handler: a frame that
parses is handed to `addLogCallback` (which appends it to the store); a
frame that throws is recorded on the diagnostic output channel and
dropped. -/
def handleFrame (store : List DecodedEntry) (diags : List (List Char))
    (frame : List Char) : List DecodedEntry × List (List Char) :=
  match decodeFrame frame with
  | some e => (store ++ [e], diags)
  | none => (store, diags ++ [frame])

/-- An exclusion-term match on the severity field forces the level block of
the filter to fail. -/
theorem passesLevel_eq_false_of_excl {lf lev : JStr}
    (h : ∃ t ∈ exclTerms (parseTerms (jsTrim lf)), toUpperJ (jsTrim lev) = t) :
    passesLevel lf lev = false := by
  obtain ⟨t, ht, heq⟩ := h
  have hf : jsTrim lf ≠ [] := by
    intro he
    rw [he] at ht
    simp [parseTerms, splitComma, jsTrim, exclTerms, jsStartsWith] at ht
  have hany : (exclTerms (parseTerms (jsTrim lf))).any
      (fun e => decide (toUpperJ (jsTrim lev) = e)) = true :=
    List.any_eq_true.mpr ⟨t, ht, by simp [heq]⟩
  simp [passesLevel, hf, hany]

/-- An exclusion-term match on a substring field (category or message)
forces that block of the filter to fail. -/
theorem passesSubstr_eq_false_of_excl {f v : JStr}
    (h : ∃ t ∈ exclTerms (parseTerms (jsTrim f)), containsSub t (toUpperJ v) = true) :
    passesSubstr f v = false := by
  obtain ⟨t, ht, heq⟩ := h
  have hf : jsTrim f ≠ [] := by
    intro he
    rw [he] at ht
    simp [parseTerms, splitComma, jsTrim, exclTerms, jsStartsWith] at ht
  have hany : (exclTerms (parseTerms (jsTrim f))).any
      (fun e => containsSub e (toUpperJ v)) = true :=
    List.any_eq_true.mpr ⟨t, ht, heq⟩
  simp [passesSubstr, hf, hany]

/-- C7: for every record and filter spec in which, for some field (severity,
category, or message), at least one exclusion term and at least one
inclusion term both match the record's value of that field,
`passesLogFilters` returns `false` — exclusion takes precedence. -/
theorem exclusion_precedence (log : UnrealLogEntry) (opts : LogFilterOptions)
    (h : (levelExclHit opts log ∧ levelInclHit opts log)
       ∨ (categoryExclHit opts log ∧ categoryInclHit opts log)
       ∨ (messageExclHit opts log ∧ messageInclHit opts log)) :
    passesLogFilters log opts = false := by
  unfold passesLogFilters
  rcases h with ⟨h1, -⟩ | ⟨h1, -⟩ | ⟨h1, -⟩
  · rw [passesLevel_eq_false_of_excl h1]
    simp
  · rw [passesSubstr_eq_false_of_excl h1]
    simp
  · rw [passesSubstr_eq_false_of_excl h1]
    simp

/-- Witness for C7: the category filter `"LogTemp,!LogTemp"` has an exclusion
and an inclusion term both matching category `LogTemp`; the record is
excluded. -/
theorem exclusion_precedence_witness :
    passesLogFilters ⟨"d".toList, "Log".toList, "LogTemp".toList, "msg".toList, none⟩
      ⟨[], "LogTemp,!LogTemp".toList, []⟩ = false :=
  exclusion_precedence _ _ (Or.inr (Or.inl
    ⟨by unfold categoryExclHit; decide, by unfold categoryInclHit; decide⟩))

/-- C8: a severity inclusion term `>X` matches exactly when both `X` and the
record's severity occur in the fixed order
`VERYVERBOSE < VERBOSE < LOG < DISPLAY < WARNING < ERROR < FATAL` and the
record's rank is at least `X`'s rank; an unknown `X` matches no record and
an unknown record severity matches no threshold term. -/
theorem severity_threshold_semantics (X logLev : JStr) :
    (levelIncMatches logLev ('>' :: X) = true ↔
      ∃ ti li, levelIndex X = some ti ∧ levelIndex logLev = some li ∧ ti ≤ li)
    ∧ (levelIndex X = none → levelIncMatches logLev ('>' :: X) = false)
    ∧ (levelIndex logLev = none → levelIncMatches logLev ('>' :: X) = false) := by
  have hstart : jsStartsWith ('>' :: X) '>' = true := by simp [jsStartsWith]
  have hdrop : ('>' :: X).drop 1 = X := rfl
  unfold levelIncMatches
  simp only [hstart, if_true, hdrop]
  refine ⟨?_, ?_, ?_⟩
  · cases hX : levelIndex X with
    | none => simp
    | some ti =>
      cases hL : levelIndex logLev with
      | none => simp
      | some li => simp
  · intro hX
    simp [hX]
  · intro hL
    cases hX : levelIndex X with
    | none => simp
    | some ti => simp [hL]

/-- Witness for C8: `>LOG` matches severity `ERROR` (ranks 2 and 5), while
`>BOGUS` matches nothing. -/
theorem severity_threshold_semantics_witness :
    levelIncMatches "ERROR".toList ('>' :: "LOG".toList) = true
    ∧ levelIncMatches "ERROR".toList ('>' :: "BOGUS".toList) = false :=
  ⟨((severity_threshold_semantics "LOG".toList "ERROR".toList).1).mpr
      ⟨2, 5, by decide, by decide, by decide⟩,
   (severity_threshold_semantics "BOGUS".toList "ERROR".toList).2.1 (by decide)⟩

/-- C9: in relative mode the rendered string is `+HH:MM:SS.mmm` with
zero-padded components whose encoded duration is exactly
`max(0, parsedTimestamp - resetEpoch)` milliseconds, minutes/seconds below
60, milliseconds below 1000 and hours accumulating without day rollover;
the input has a trailing `Z` stripped (and only that) before parsing. -/
theorem formatDate_relative (parseLocal : JStr → Int) (absRender : Int → JStr)
    (epoch : Int) (s : JStr) :
    ∃ H M S ms,
      formatDate true parseLocal absRender epoch s =
        '+' :: (padStartZeros (natDigits H) 2 ++ ':' :: (padStartZeros (natDigits M) 2 ++
          ':' :: (padStartZeros (natDigits S) 2 ++ '.' :: padStartZeros (natDigits ms) 3)))
      ∧ ms < 1000 ∧ S < 60 ∧ M < 60
      ∧ 3600000 * H + 60000 * M + 1000 * S + ms
          = (max 0 (parseLocal (stripTrailingZ s) - epoch)).toNat
      ∧ (∀ s' : JStr, s'.getLast? = some 'Z' → stripTrailingZ s' = s'.dropLast)
      ∧ (∀ s' : JStr, s'.getLast? ≠ some 'Z' → stripTrailingZ s' = s') := by
  refine ⟨(max 0 (parseLocal (stripTrailingZ s) - epoch)).toNat / 1000 / 60 / 60,
          (max 0 (parseLocal (stripTrailingZ s) - epoch)).toNat / 1000 / 60 % 60,
          (max 0 (parseLocal (stripTrailingZ s) - epoch)).toNat / 1000 % 60,
          (max 0 (parseLocal (stripTrailingZ s) - epoch)).toNat % 1000,
          rfl, ?_, ?_, ?_, ?_, ?_, ?_⟩
  · exact Nat.mod_lt _ (by norm_num)
  · exact Nat.mod_lt _ (by norm_num)
  · exact Nat.mod_lt _ (by norm_num)
  · omega
  · intro s' h
    simp [stripTrailingZ, h]
  · intro s' h
    simp [stripTrailingZ, h]

/-- Witness for C9: a fully instantiated rendering (5,000,000 ms past the
epoch formats as one hour, 23 minutes, 20 seconds). -/
theorem formatDate_relative_witness :
    ∃ H M S ms,
      formatDate true (fun _ => 5000000) (fun _ => []) 0 "2024-01-01T00:00:05Z".toList =
        '+' :: (padStartZeros (natDigits H) 2 ++ ':' :: (padStartZeros (natDigits M) 2 ++
          ':' :: (padStartZeros (natDigits S) 2 ++ '.' :: padStartZeros (natDigits ms) 3)))
      ∧ ms < 1000 ∧ S < 60 ∧ M < 60
      ∧ 3600000 * H + 60000 * M + 1000 * S + ms
          = (max 0 ((fun (_ : JStr) => (5000000 : Int)) (stripTrailingZ "2024-01-01T00:00:05Z".toList) - 0)).toNat
      ∧ (∀ s' : JStr, s'.getLast? = some 'Z' → stripTrailingZ s' = s'.dropLast)
      ∧ (∀ s' : JStr, s'.getLast? ≠ some 'Z' → stripTrailingZ s' = s') :=
  formatDate_relative (fun _ => 5000000) (fun _ => []) 0 "2024-01-01T00:00:05Z".toList

example :
    formatDate true (fun _ => 5000000) (fun _ => []) 0 "x".toList
      = "+01:23:20.000".toList := by decide

example :
    formatDate true (fun s => if s = "aZ".toList then 7 else 1) (fun _ => []) 0 "aZZ".toList
      = "+00:00:00.007".toList := by decide

/-- C10: after any sequence of `PauseManager` operations, whenever
`isPaused` is false, `getDisplayedLogs()` returns the empty list and
`getLastShownCount()` returns no value — an unpaused controller never
exposes a stale snapshot or count. -/
theorem pause_manager_no_stale_when_unpaused (ops : List PMOp)
    (h : (ops.foldl pmApply PMState.initial).isPaused = false) :
    pmGetDisplayedLogs (ops.foldl pmApply PMState.initial) = []
    ∧ pmGetLastShownCount (ops.foldl pmApply PMState.initial) = none := by
  constructor
  · simp [pmGetDisplayedLogs, h]
  · simp [pmGetLastShownCount, h]

/-- Witness for C10: toggling twice after a capture leaves an unpaused
state exposing nothing. -/
theorem pause_manager_no_stale_when_unpaused_witness :
    ([PMOp.toggle (some [⟨"d".toList, "L".toList, "C".toList, "m".toList, none⟩]),
      PMOp.toggle none].foldl pmApply PMState.initial).isPaused = false
    ∧ (pmGetDisplayedLogs ([PMOp.toggle (some [⟨"d".toList, "L".toList, "C".toList, "m".toList, none⟩]),
        PMOp.toggle none].foldl pmApply PMState.initial) = []
      ∧ pmGetLastShownCount ([PMOp.toggle (some [⟨"d".toList, "L".toList, "C".toList, "m".toList, none⟩]),
        PMOp.toggle none].foldl pmApply PMState.initial) = none) :=
  ⟨by decide,
   pause_manager_no_stale_when_unpaused
     [PMOp.toggle (some [⟨"d".toList, "L".toList, "C".toList, "m".toList, none⟩]),
      PMOp.toggle none] (by decide)⟩

theorem updateCountsInWebview_noview {s : ProviderState} (hv : s.hasView = false) :
    updateCountsInWebview s = (s, []) := by
  simp [updateCountsInWebview, hv]

theorem updateCountsInWebview_paused_some {s : ProviderState} {n : Nat}
    (hv : s.hasView = true) (hp : s.isPaused = true)
    (hn : s.lastShownCountWhenPaused = some n) :
    updateCountsInWebview s = (s, [SinkMsg.updateCounts n s.logs.length]) := by
  simp [updateCountsInWebview, hv, hp, hn]

theorem updateCountsInWebview_paused_none {s : ProviderState}
    (hv : s.hasView = true) (hp : s.isPaused = true)
    (hn : s.lastShownCountWhenPaused = none) :
    updateCountsInWebview s =
      ({ s with lastShownCountWhenPaused := some (s.logs.filter (fun log => providerPasses s log)).length },
       [SinkMsg.updateCounts (s.logs.filter (fun log => providerPasses s log)).length
          s.logs.length]) := by
  simp [updateCountsInWebview, hv, hp, hn]

theorem updateCountsInWebview_live {s : ProviderState}
    (hv : s.hasView = true) (hp : s.isPaused = false) :
    updateCountsInWebview s =
      ({ s with lastShownCountWhenPaused := none },
       [SinkMsg.updateCounts (s.logs.filter (fun log => providerPasses s log)).length
          s.logs.length]) := by
  simp [updateCountsInWebview, hv, hp]

theorem updateCountsInWebview_logs (s : ProviderState) :
    (updateCountsInWebview s).1.logs = s.logs := by
  unfold updateCountsInWebview
  cases hv : s.hasView
  · simp
  · cases hp : s.isPaused
    · simp
    · cases hn : s.lastShownCountWhenPaused <;> simp [hn]

theorem updateCountsInWebview_isPaused (s : ProviderState) :
    (updateCountsInWebview s).1.isPaused = s.isPaused := by
  unfold updateCountsInWebview
  cases hv : s.hasView
  · simp
  · cases hp : s.isPaused
    · simp
    · cases hn : s.lastShownCountWhenPaused <;> simp [hn, hp]

theorem updateCountsInWebview_snapshot (s : ProviderState) :
    (updateCountsInWebview s).1.displayedLogsOnPause = s.displayedLogsOnPause := by
  unfold updateCountsInWebview
  cases hv : s.hasView
  · simp
  · cases hp : s.isPaused
    · simp
    · cases hn : s.lastShownCountWhenPaused <;> simp [hn]

theorem updateCountsInWebview_filters (s : ProviderState) :
    (updateCountsInWebview s).1.levelFilter = s.levelFilter
    ∧ (updateCountsInWebview s).1.categoryFilter = s.categoryFilter
    ∧ (updateCountsInWebview s).1.messageFilter = s.messageFilter
    ∧ (updateCountsInWebview s).1.lastClearTime = s.lastClearTime := by
  unfold updateCountsInWebview
  cases hv : s.hasView
  · simp
  · cases hp : s.isPaused
    · simp
    · cases hn : s.lastShownCountWhenPaused <;> simp [hn]

theorem pruneForCapacity_not_needed {logs : List UnrealLogEntry} {m : Nat}
    (h : ¬ logs.length + 1 > m) :
    pruneForCapacity logs m = (logs, false, 0) := by
  simp [pruneForCapacity, h]

theorem pruneForCapacity_needed {logs : List UnrealLogEntry} {m : Nat}
    (h : logs.length + 1 > m) (hm : 100 ≤ m) :
    pruneForCapacity logs m =
      (logs.drop (max 1 (m / 10)), true, max 1 (m / 10)) := by
  have hk : max 1 (m / 10) ≤ logs.length := by
    have h10 : m / 10 ≤ m := Nat.div_le_self m 10
    omega
  have : min (max 1 (m / 10)) logs.length = max 1 (m / 10) := Nat.min_eq_left hk
  simp [pruneForCapacity, h, this]

theorem providerAddLog_noview {env : ProviderEnv} {s : ProviderState} {log : UnrealLogEntry}
    (hv : s.hasView = false) :
    providerAddLog env s log =
      ({ s with logs := (pruneForCapacity s.logs (max env.maxLogsSetting 100)).1 ++ [log] },
       []) := by
  unfold providerAddLog
  simp [hv]

theorem providerAddLog_paused_view {env : ProviderEnv} {s : ProviderState} {log : UnrealLogEntry}
    (hp : s.isPaused = true) (hv : s.hasView = true) :
    providerAddLog env s log =
      updateCountsInWebview
        { s with logs := (pruneForCapacity s.logs (max env.maxLogsSetting 100)).1 ++ [log] } := by
  unfold providerAddLog
  simp [hp, hv]

theorem providerAddLog_logs (env : ProviderEnv) (s : ProviderState) (log : UnrealLogEntry) :
    (providerAddLog env s log).1.logs =
      (pruneForCapacity s.logs (max env.maxLogsSetting 100)).1 ++ [log] ++
      (if (s.logs.length + 1 > max env.maxLogsSetting 100 ∧ (!s.isPaused && s.hasView) = true)
       then [pruneEntry env (pruneForCapacity s.logs (max env.maxLogsSetting 100)).2.2
              (max env.maxLogsSetting 100)]
       else []) := by
  by_cases hc : s.logs.length + 1 > max env.maxLogsSetting 100
  · cases hp : s.isPaused <;> cases hv : s.hasView <;>
      simp [providerAddLog, pruneForCapacity_needed hc (le_max_right _ _), hp, hv, hc,
        updateCountsInWebview_logs]
  · cases hp : s.isPaused <;> cases hv : s.hasView <;>
      simp [providerAddLog, pruneForCapacity_not_needed hc, hp, hv, hc,
        updateCountsInWebview_logs]

theorem providerAddLog_length_le (env : ProviderEnv) (s : ProviderState) (log : UnrealLogEntry)
    (h : s.logs.length ≤ max env.maxLogsSetting 100) :
    (providerAddLog env s log).1.logs.length ≤ max env.maxLogsSetting 100 := by
  have hm : (100 : Nat) ≤ max env.maxLogsSetting 100 := le_max_right _ _
  rw [providerAddLog_logs]
  by_cases hc : s.logs.length + 1 > max env.maxLogsSetting 100
  · rw [pruneForCapacity_needed hc (le_max_right _ _)]
    have h10 : 10 ≤ max env.maxLogsSetting 100 / 10 := by
      have h2 : (100 : Nat) / 10 ≤ max env.maxLogsSetting 100 / 10 := Nat.div_le_div_right hm
      simpa using h2
    split <;> simp [List.length_drop] <;> omega
  · rw [pruneForCapacity_not_needed hc]
    split <;> simp <;> omega

theorem providerAddLog_fold_length_le (env : ProviderEnv) (batch : List UnrealLogEntry) :
    ∀ s : ProviderState, s.logs.length ≤ max env.maxLogsSetting 100 →
      ((batch.foldl (fun st l => (providerAddLog env st l).1) s).logs.length
        ≤ max env.maxLogsSetting 100) := by
  induction batch with
  | nil => intro s h; simpa using h
  | cons a t ih =>
    intro s h
    simp only [List.foldl_cons]
    exact ih _ (providerAddLog_length_le env s a h)

/-- C1, counterexample: after pausing a provider at capacity, the next
insertion evicts the 10 oldest records but appends no eviction-notice
record — the store afterwards is just the 90 survivors plus the new
record, and no entry has the internal notice category. -/
theorem capacity_eviction_notice_counterexample :
    (providerAddLog envC pausedFull recB).1.logs = List.replicate 90 recA ++ [recB]
    ∧ ∀ e ∈ (providerAddLog envC pausedFull recB).1.logs,
        e.category ≠ "LogViewerInternal".toList := by
  constructor
  · decide
  · decide

/-- C1 (amended): after each insertion the store count stays within
`max(setting, 100)`; an insertion that would exceed capacity first removes
exactly the `max(1, floor(max/10))` oldest records, and the synthetic
eviction-notice record is appended only when the provider is live with a
view attached (never by `LogStore.addLog`, whose result is exactly the
pruned survivors plus the new record). The bound holds along every
insertion sequence. -/
theorem capacity_invariant (env : ProviderEnv) (s : ProviderState) (log : UnrealLogEntry)
    (h : s.logs.length ≤ max env.maxLogsSetting 100) :
    ((providerAddLog env s log).1.logs.length ≤ max env.maxLogsSetting 100)
    ∧ (s.logs.length + 1 ≤ max env.maxLogsSetting 100 →
        (providerAddLog env s log).1.logs = s.logs ++ [log])
    ∧ (s.logs.length + 1 > max env.maxLogsSetting 100 →
        (providerAddLog env s log).1.logs =
          s.logs.drop (max 1 (max env.maxLogsSetting 100 / 10)) ++ [log] ++
          (if (!s.isPaused && s.hasView) = true
           then [pruneEntry env (max 1 (max env.maxLogsSetting 100 / 10))
                  (max env.maxLogsSetting 100)]
           else []))
    ∧ (∀ batch : List UnrealLogEntry,
        ((batch.foldl (fun st l => (providerAddLog env st l).1) s).logs.length
          ≤ max env.maxLogsSetting 100))
    ∧ (∀ (logs2 : List UnrealLogEntry) (setting : Nat) (l2 : UnrealLogEntry),
        logs2.length ≤ max setting 100 →
          (storeAddLog logs2 setting l2).1.length ≤ max setting 100
          ∧ (logs2.length + 1 > max setting 100 →
              (storeAddLog logs2 setting l2).1 =
                logs2.drop (max 1 (max setting 100 / 10)) ++ [l2])) := by
  refine ⟨providerAddLog_length_le env s log h, ?_, ?_, ?_, ?_⟩
  · intro hc
    rw [providerAddLog_logs, pruneForCapacity_not_needed (by omega)]
    simp
    omega
  · intro hc
    rw [providerAddLog_logs, pruneForCapacity_needed hc (le_max_right _ _)]
    simp [hc]
  · intro batch
    exact providerAddLog_fold_length_le env batch s h
  · intro logs2 setting l2 h2
    have hm : (100 : Nat) ≤ max setting 100 := le_max_right _ _
    constructor
    · simp only [storeAddLog]
      by_cases hc : logs2.length + 1 > max setting 100
      · rw [pruneForCapacity_needed hc hm]
        have h10 : 10 ≤ max setting 100 / 10 := by
          have hq : (100 : Nat) / 10 ≤ max setting 100 / 10 := Nat.div_le_div_right hm
          simpa using hq
        simp [List.length_drop]
        omega
      · rw [pruneForCapacity_not_needed hc]
        simp
        omega
    · intro hc
      simp only [storeAddLog]
      rw [pruneForCapacity_needed hc hm]

/-- Witness for C1: inserting into a store of 99 records at capacity 100
appends without eviction. -/
theorem capacity_invariant_witness :
    ((providerAddLog envC
        ⟨List.replicate 99 recA, [], [], [], 0, false, none, [], false⟩ recB).1.logs.length ≤
      max envC.maxLogsSetting 100)
    ∧ ((providerAddLog envC
        ⟨List.replicate 99 recA, [], [], [], 0, false, none, [], false⟩ recB).1.logs =
      List.replicate 99 recA ++ [recB]) :=
  ⟨(capacity_invariant envC ⟨List.replicate 99 recA, [], [], [], 0, false, none, [], false⟩
      recB (by decide)).1,
   (capacity_invariant envC ⟨List.replicate 99 recA, [], [], [], 0, false, none, [], false⟩
      recB (by decide)).2.1 (by decide)⟩

example : passesLogFilters ⟨"d".toList, "Error".toList, "LogTemp".toList, "hello".toList, none⟩
    ⟨"error".toList, [], []⟩ = true := by decide

example : passesLogFilters ⟨"d".toList, "Error".toList, "LogTemp".toList, "hello".toList, none⟩
    ⟨[], "!LogTemp".toList, []⟩ = false := by decide

example : passesLogFilters ⟨"d".toList, "Error".toList, "LogTemp".toList, "hello".toList, none⟩
    (⟨"> warning".toList, [], []⟩ : LogFilterOptions) = false := by decide

example : passesLogFilters ⟨"d".toList, "Error".toList, "LogTemp".toList, "hello".toList, none⟩
    (⟨">warning".toList, [], []⟩ : LogFilterOptions) = true := by decide

example : passesLogFilters ⟨"d".toList, "Error".toList, "LogTemp".toList, "hello".toList, none⟩
    (⟨" , ,".toList, [], []⟩ : LogFilterOptions) = true := by decide

theorem providerAddLog_paused_frozen (env : ProviderEnv) {s : ProviderState} {n : Nat}
    (hp : s.isPaused = true) (hn : s.lastShownCountWhenPaused = some n)
    (log : UnrealLogEntry) :
    ((providerAddLog env s log).1.isPaused = true)
    ∧ ((providerAddLog env s log).1.lastShownCountWhenPaused = some n)
    ∧ ((providerAddLog env s log).1.displayedLogsOnPause = s.displayedLogsOnPause) := by
  cases hv : s.hasView
  · rw [providerAddLog_noview hv]
    exact ⟨hp, hn, rfl⟩
  · rw [providerAddLog_paused_view hp hv]
    rw [updateCountsInWebview_paused_some (by simpa using hv) (by simpa using hp) (by simpa using hn)]
    exact ⟨hp, hn, rfl⟩

theorem providerAddLog_paused_counts (env : ProviderEnv) {s : ProviderState} {n : Nat}
    (hp : s.isPaused = true) (hn : s.lastShownCountWhenPaused = some n)
    (hv : s.hasView = true) (log : UnrealLogEntry) :
    (providerAddLog env s log).2
      = [SinkMsg.updateCounts n (providerAddLog env s log).1.logs.length] := by
  rw [providerAddLog_paused_view hp hv]
  rw [updateCountsInWebview_paused_some (by simpa using hv) (by simpa using hp) (by simpa using hn)]

theorem pausedFold_frozen (env : ProviderEnv) (batch : List UnrealLogEntry) :
    ∀ (s : ProviderState) (n : Nat), s.isPaused = true →
      s.lastShownCountWhenPaused = some n →
      ((batch.foldl (fun st l => (providerAddLog env st l).1) s).isPaused = true
      ∧ (batch.foldl (fun st l => (providerAddLog env st l).1) s).lastShownCountWhenPaused = some n
      ∧ (batch.foldl (fun st l => (providerAddLog env st l).1) s).displayedLogsOnPause
          = s.displayedLogsOnPause) := by
  induction batch with
  | nil => intro s n hp hn; exact ⟨hp, hn, rfl⟩
  | cons a t ih =>
    intro s n hp hn
    obtain ⟨h1, h2, h3⟩ := providerAddLog_paused_frozen env hp hn a
    obtain ⟨g1, g2, g3⟩ := ih (providerAddLog env s a).1 n h1 h2
    simp only [List.foldl_cons]
    exact ⟨g1, g2, g3.trans h3⟩

/-- C3 (amended): once the pause toggle has moved the controller to Paused
(frozen shown count `n`), any sequence of ingested records leaves the pause
flag, the frozen snapshot and the frozen count untouched, so the content
and count returned by get-displayed-records are unchanged until the next
toggle; each ingestion with a view attached emits exactly one counts
message whose shown value stays pinned at `n` and whose total is the store
length after the insertion — a total that normally grows by one but shrinks
when the insertion triggers an eviction. -/
theorem pause_freezing (env : ProviderEnv) (s : ProviderState) (n : Nat)
    (hp : s.isPaused = true) (hn : s.lastShownCountWhenPaused = some n) :
    (∀ batch : List UnrealLogEntry,
      ((batch.foldl (fun st l => (providerAddLog env st l).1) s).isPaused = true)
      ∧ ((batch.foldl (fun st l => (providerAddLog env st l).1) s).lastShownCountWhenPaused
          = some n)
      ∧ (∀ env2 : ProviderEnv,
          getDisplayedLogEntriesForTest env2
              (batch.foldl (fun st l => (providerAddLog env st l).1) s)
            = getDisplayedLogEntriesForTest env2 s))
    ∧ (∀ (st : ProviderState) (l : UnrealLogEntry), st.isPaused = true →
        st.lastShownCountWhenPaused = some n → st.hasView = true →
        (providerAddLog env st l).2
          = [SinkMsg.updateCounts n (providerAddLog env st l).1.logs.length]) := by
  constructor
  · intro batch
    obtain ⟨h1, h2, h3⟩ := pausedFold_frozen env batch s n hp hn
    refine ⟨h1, h2, ?_⟩
    intro env2
    simp [getDisplayedLogEntriesForTest, h1, hp, h3]
  · intro st l hp2 hn2 hv2
    exact providerAddLog_paused_counts env hp2 hn2 hv2 l

/-- Witness for C3: ingesting two records into a paused provider with one
frozen record leaves the displayed list frozen. -/
theorem pause_freezing_witness :
    (([recB, recB].foldl (fun st l => (providerAddLog envC st l).1)
        ⟨[recA], [], [], [], 0, true, some 1, [recA], true⟩).isPaused = true)
    ∧ (([recB, recB].foldl (fun st l => (providerAddLog envC st l).1)
        ⟨[recA], [], [], [], 0, true, some 1, [recA], true⟩).lastShownCountWhenPaused = some 1)
    ∧ (∀ env2 : ProviderEnv,
        getDisplayedLogEntriesForTest env2
            ([recB, recB].foldl (fun st l => (providerAddLog envC st l).1)
              ⟨[recA], [], [], [], 0, true, some 1, [recA], true⟩)
          = getDisplayedLogEntriesForTest env2
              ⟨[recA], [], [], [], 0, true, some 1, [recA], true⟩) :=
  (pause_freezing envC ⟨[recA], [], [], [], 0, true, some 1, [recA], true⟩ 1
    rfl rfl).1 [recB, recB]

/-- C3, counterexample: pausing a provider at capacity 100 and then
ingesting one record prunes 10 records, and the emitted counts message
reports total 91 — the emitted total decreased from 100 instead of
increasing. -/
theorem pause_total_counterexample :
    (providerAddLog envC pausedFull recB).2 = [SinkMsg.updateCounts 100 91]
    ∧ pausedFull.logs.length = 100 ∧ 91 < 100 := by
  refine ⟨?_, by decide, by decide⟩
  decide

/-- C5, counterexample: a full clear-logs on a paused provider with frozen
shown count 1 emits counts `(1, 0)` — not `(0, 0)` — and leaves the pause
snapshot and frozen count un-reset. -/
theorem clear_logs_counterexample :
    (providerClearLogs envC pausedSnap).2
      = [SinkMsg.setLogs [], SinkMsg.updateFilterInputs [] [] [],
         SinkMsg.updateCounts 1 0]
    ∧ (providerClearLogs envC pausedSnap).1.displayedLogsOnPause = [recAShown]
    ∧ (providerClearLogs envC pausedSnap).1.lastShownCountWhenPaused = some 1 := by
  refine ⟨?_, ?_, ?_⟩ <;> decide

/-- C5 (amended): the full clear-logs command empties the store, resets all
three filter strings and the reset epoch, and (with a view attached) emits
the filter-inputs reset, the empty full-replace and a counts message; but
the pause snapshot and frozen shown count are NOT reset, so the emitted
counts are `(0, 0)` only when live — while paused the shown value remains
the frozen count. -/
theorem clear_logs_behavior (env : ProviderEnv) (s : ProviderState) :
    ((providerClearLogs env s).1.logs = [])
    ∧ ((providerClearLogs env s).1.levelFilter = []
        ∧ (providerClearLogs env s).1.categoryFilter = []
        ∧ (providerClearLogs env s).1.messageFilter = [])
    ∧ ((providerClearLogs env s).1.lastClearTime = env.now)
    ∧ ((providerClearLogs env s).1.isPaused = s.isPaused)
    ∧ ((providerClearLogs env s).1.displayedLogsOnPause = s.displayedLogsOnPause)
    ∧ (s.hasView = true → s.isPaused = false →
        (providerClearLogs env s).2
          = [SinkMsg.setLogs [], SinkMsg.updateFilterInputs [] [] [],
             SinkMsg.updateCounts 0 0])
    ∧ (∀ n : Nat, s.hasView = true → s.isPaused = true →
        s.lastShownCountWhenPaused = some n →
        (providerClearLogs env s).2
          = [SinkMsg.setLogs [], SinkMsg.updateFilterInputs [] [] [],
             SinkMsg.updateCounts n 0]) := by
  refine ⟨?_, ⟨?_, ?_, ?_⟩, ?_, ?_, ?_, ?_, ?_⟩ <;>
    intros <;> cases hv2 : s.hasView <;> by_cases hp2 : s.isPaused = true <;>
    cases hn2 : s.lastShownCountWhenPaused <;>
    simp_all [providerClearLogs, updateCountsInWebview]

/-- Witness for C5: a live clear emits the reset messages and `(0, 0)`. -/
theorem clear_logs_behavior_witness :
    ((providerClearLogs envC ⟨[recA], "E".toList, [], [], 3, false, none, [], true⟩).1.logs = [])
    ∧ ((providerClearLogs envC ⟨[recA], "E".toList, [], [], 3, false, none, [], true⟩).2
        = [SinkMsg.setLogs [], SinkMsg.updateFilterInputs [] [] [],
           SinkMsg.updateCounts 0 0]) :=
  ⟨(clear_logs_behavior envC ⟨[recA], "E".toList, [], [], 3, false, none, [], true⟩).1,
   (clear_logs_behavior envC ⟨[recA], "E".toList, [], [], 3, false, none, [], true⟩).2.2.2.2.2.1
      rfl rfl⟩

/-- C6, counterexample: a display-only clear on a paused provider does not
replace the frozen snapshot records — get-displayed-records still returns
the pre-clear snapshot. -/
theorem webview_clear_counterexample :
    getDisplayedLogEntriesForTest envC (providerWebviewClear envC pausedSnap).1 = [recAShown]
    ∧ (providerWebviewClear envC pausedSnap).1.displayedLogsOnPause = [recAShown]
    ∧ [recAShown] ≠ ([] : List UnrealLogEntry) := by
  refine ⟨?_, ?_, ?_⟩ <;> decide

/-- C6 (amended): the display-only clear empties the store, resets the
epoch, leaves the three filter strings untouched, keeps the pause state,
sets the frozen shown count to 0 (unconditionally) and, with a view
attached, emits the empty full-replace and counts `(0, 0)`; the frozen
snapshot records themselves are NOT emptied by the provider — only the
standalone `PauseManager.resetForWebviewClear` empties them, and it does so
exactly when paused. -/
theorem webview_clear_behavior (env : ProviderEnv) (s : ProviderState) :
    ((providerWebviewClear env s).1.logs = [])
    ∧ ((providerWebviewClear env s).1.lastClearTime = env.now)
    ∧ ((providerWebviewClear env s).1.levelFilter = s.levelFilter
        ∧ (providerWebviewClear env s).1.categoryFilter = s.categoryFilter
        ∧ (providerWebviewClear env s).1.messageFilter = s.messageFilter)
    ∧ ((providerWebviewClear env s).1.isPaused = s.isPaused)
    ∧ ((providerWebviewClear env s).1.displayedLogsOnPause = s.displayedLogsOnPause)
    ∧ (s.hasView = true →
        (providerWebviewClear env s).2 = [SinkMsg.setLogs [], SinkMsg.updateCounts 0 0])
    ∧ (∀ pm : PMState, pm.isPaused = true →
        pmResetForWebviewClear pm
          = { pm with displayedLogsOnPause := [], lastShownCountWhenPaused := some 0 })
    ∧ (∀ pm : PMState, pm.isPaused = false → pmResetForWebviewClear pm = pm) := by
  refine ⟨?_, ?_, ⟨?_, ?_, ?_⟩, ?_, ?_, ?_, ?_, ?_⟩ <;>
    intros <;> first
    | (rename_i pm hpm
       simp [pmResetForWebviewClear, hpm])
    | (cases hv2 : s.hasView <;> by_cases hp2 : s.isPaused = true <;>
       cases hn2 : s.lastShownCountWhenPaused <;>
       simp_all [providerWebviewClear, updateCountsInWebview])

/-- Witness for C6: a display-only clear on a live provider with one record
and a severity filter empties the store, keeps the filter and emits
`(0, 0)`. -/
theorem webview_clear_behavior_witness :
    ((providerWebviewClear envC ⟨[recA], "E".toList, [], [], 3, false, none, [], true⟩).1.logs = [])
    ∧ ((providerWebviewClear envC ⟨[recA], "E".toList, [], [], 3, false, none, [], true⟩).1.levelFilter
        = "E".toList)
    ∧ ((providerWebviewClear envC ⟨[recA], "E".toList, [], [], 3, false, none, [], true⟩).2
        = [SinkMsg.setLogs [], SinkMsg.updateCounts 0 0]) :=
  ⟨(webview_clear_behavior envC ⟨[recA], "E".toList, [], [], 3, false, none, [], true⟩).1,
   (webview_clear_behavior envC ⟨[recA], "E".toList, [], [], 3, false, none, [], true⟩).2.2.1.1,
   (webview_clear_behavior envC ⟨[recA], "E".toList, [], [], 3, false, none, [], true⟩).2.2.2.2.2.1
     rfl⟩

theorem scanClose_some_lt {xs : List Char} {d : Int} {i e : Bool} {j : Nat}
    (h : scanClose xs d i e = some j) : j < xs.length := by
  induction xs generalizing d i e j with
  | nil => simp [scanClose] at h
  | cons c t ih =>
    rw [scanClose] at h
    cases hs : scanStep c d i e with
    | none =>
      rw [hs] at h
      simp at h
      simp only [List.length_cons]
      omega
    | some p =>
      rw [hs] at h
      simp only [Option.map_eq_some'] at h
      obtain ⟨j2, hj2, rfl⟩ := h
      have := ih hj2
      simp only [List.length_cons]
      omega

theorem dropWhile_length_le (p : Char → Bool) (l : List Char) :
    (l.dropWhile p).length ≤ l.length := by
  induction l with
  | nil => simp
  | cons a t ih =>
    by_cases hp : p a = true
    · simp [List.dropWhile_cons, hp]
      omega
    · simp [List.dropWhile_cons, hp]

theorem dropWhile_append_of_ne_nil {p : Char → Bool} {a : List Char}
    (h : a.dropWhile p ≠ []) (b : List Char) :
    (a ++ b).dropWhile p = a.dropWhile p ++ b := by
  induction a with
  | nil => simp at h
  | cons x t ih =>
    by_cases hp : p x = true
    · rw [List.dropWhile_cons] at h
      simp only [hp, if_true] at h
      simp [List.dropWhile_cons, hp, ih h]
    · simp [List.dropWhile_cons, hp]

theorem findFrame_rest_lt {buffer f rest : List Char}
    (h : findFrame buffer = some (f, rest)) : rest.length < buffer.length := by
  unfold findFrame at h
  cases hs : scanClose (buffer.dropWhile notOpenBrace) 0 false false with
  | none => simp [hs] at h
  | some j =>
    simp only [hs] at h
    have hr : rest = (buffer.dropWhile notOpenBrace).drop (j + 1) := by
      have := (Option.some.injEq _ _ ▸ h)
      exact (congrArg Prod.snd this).symm
    have hlt : j < (buffer.dropWhile notOpenBrace).length := scanClose_some_lt hs
    have hle : (buffer.dropWhile notOpenBrace).length ≤ buffer.length :=
      dropWhile_length_le _ _
    rw [hr]
    simp only [List.length_drop]
    omega

example :
    extractFrames ("junk\x7b\"a\":\"\x7d\x7b\"\x7dtail\x7b".toList)
      = (["\x7b\"a\":\"\x7d\x7b\"\x7d".toList], "tail\x7b".toList) := by decide

example :
    extractFrames ("\x7b\x7d\x7b\"x\":\"1\"\x7drest".toList)
      = (["\x7b\x7d".toList, "\x7b\"x\":\"1\"\x7d".toList], "rest".toList) := by decide

example :
    extractFrames ("\x7b\"a\":\"\\\"\x7d\"\x7dz".toList)
      = (["\x7b\"a\":\"\\\"\x7d\"\x7d".toList], "z".toList) := by decide

theorem scanClose_append_some {xs : List Char} {d : Int} {i e : Bool} {j : Nat}
    (h : scanClose xs d i e = some j) (ys : List Char) :
    scanClose (xs ++ ys) d i e = some j := by
  induction xs generalizing d i e j with
  | nil => simp [scanClose] at h
  | cons c t ih =>
    rw [scanClose] at h
    rw [List.cons_append, scanClose]
    cases hs : scanStep c d i e with
    | none =>
      rw [hs] at h
      exact h
    | some p =>
      rw [hs] at h
      simp only [Option.map_eq_some'] at h
      obtain ⟨j2, hj2, rfl⟩ := h
      simp [ih hj2]

theorem extractFramesGo_fuel_irrel :
    ∀ (f1 : Nat) {f2 : Nat} {buffer : List Char}, buffer.length < f1 → buffer.length < f2 →
      extractFramesGo f1 buffer = extractFramesGo f2 buffer := by
  intro f1
  induction f1 with
  | zero => intro f2 buffer h1 h2; omega
  | succ g1 ih =>
    intro f2 buffer h1 h2
    cases f2 with
    | zero => omega
    | succ g2 =>
      rw [extractFramesGo, extractFramesGo]
      cases hf : findFrame buffer with
      | none => rfl
      | some p =>
        obtain ⟨f, rest⟩ := p
        have hlt : rest.length < buffer.length := findFrame_rest_lt hf
        simp only
        rw [@ih g2 rest (by omega) (by omega)]

theorem extractFrames_eq_none {buffer : List Char} (h : findFrame buffer = none) :
    extractFrames buffer = ([], buffer) := by
  rw [extractFrames, extractFramesGo, h]

theorem extractFrames_eq_some {buffer f rest : List Char}
    (h : findFrame buffer = some (f, rest)) :
    extractFrames buffer = (f :: (extractFrames rest).1, (extractFrames rest).2) := by
  have hlt : rest.length < buffer.length := findFrame_rest_lt h
  rw [extractFrames, extractFramesGo, h]
  simp only
  rw [@extractFramesGo_fuel_irrel buffer.length (rest.length + 1) rest (by omega) (by omega)]
  rfl

theorem scanClose_nil (d : Int) (i e : Bool) : scanClose [] d i e = none := rfl

theorem findFrame_append_some {a f rest : List Char}
    (h : findFrame a = some (f, rest)) (b : List Char) :
    findFrame (a ++ b) = some (f, rest ++ b) := by
  unfold findFrame at h ⊢
  cases hs : scanClose (a.dropWhile notOpenBrace) 0 false false with
  | none => simp [hs] at h
  | some j =>
    simp only [hs] at h
    have hf : f = (a.dropWhile notOpenBrace).take (j + 1) := by
      have := (Option.some.injEq _ _ ▸ h)
      exact (congrArg Prod.fst this).symm
    have hr : rest = (a.dropWhile notOpenBrace).drop (j + 1) := by
      have := (Option.some.injEq _ _ ▸ h)
      exact (congrArg Prod.snd this).symm
    have hne : a.dropWhile notOpenBrace ≠ [] := by
      intro he
      rw [he, scanClose_nil] at hs
      exact Option.noConfusion hs
    have hdw : (a ++ b).dropWhile notOpenBrace = a.dropWhile notOpenBrace ++ b :=
      dropWhile_append_of_ne_nil hne b
    have hj : j + 1 ≤ (a.dropWhile notOpenBrace).length := scanClose_some_lt hs
    rw [hdw, scanClose_append_some hs b]
    simp only [Option.some.injEq, Prod.mk.injEq]
    constructor
    · rw [hf, List.take_append_of_le_length hj]
    · rw [hr, List.drop_append_of_le_length hj]

theorem extractFrames_append (a b : List Char) :
    extractFrames (a ++ b) =
      ((extractFrames a).1 ++ (extractFrames ((extractFrames a).2 ++ b)).1,
       (extractFrames ((extractFrames a).2 ++ b)).2) := by
  have main : ∀ (n : Nat) (a b : List Char), a.length ≤ n →
      extractFrames (a ++ b) =
        ((extractFrames a).1 ++ (extractFrames ((extractFrames a).2 ++ b)).1,
         (extractFrames ((extractFrames a).2 ++ b)).2) := by
    intro n
    induction n with
    | zero =>
      intro a b ha
      have : a = [] := List.length_eq_zero.mp (by omega)
      subst this
      have h0 : extractFrames [] = ([], []) := rfl
      simp [h0]
    | succ g ih =>
      intro a b ha
      cases hf : findFrame a with
      | none =>
        rw [extractFrames_eq_none hf]
        simp
      | some p =>
        obtain ⟨f, rest⟩ := p
        have hlt : rest.length < a.length := findFrame_rest_lt hf
        rw [extractFrames_eq_some hf,
          extractFrames_eq_some (findFrame_append_some hf b),
          ih rest b (by omega)]
        simp
  exact main a.length a b le_rfl

theorem findFrame_extractFrames_none (buffer : List Char) :
    findFrame (extractFrames buffer).2 = none := by
  have main : ∀ (n : Nat) (buffer : List Char), buffer.length ≤ n →
      findFrame (extractFrames buffer).2 = none := by
    intro n
    induction n with
    | zero =>
      intro buffer hb
      have : buffer = [] := List.length_eq_zero.mp (by omega)
      subst this
      rfl
    | succ g ih =>
      intro buffer hb
      cases hf : findFrame buffer with
      | none =>
        rw [extractFrames_eq_none hf]
        exact hf
      | some p =>
        obtain ⟨f, rest⟩ := p
        have hlt : rest.length < buffer.length := findFrame_rest_lt hf
        rw [extractFrames_eq_some hf]
        exact ih rest (by omega)
  exact main buffer.length buffer le_rfl

theorem foldl_feedChunk (chunks : List (List Char)) :
    ∀ acc : List (List Char) × List Char, findFrame acc.2 = none →
      chunks.foldl feedChunk acc =
        (acc.1 ++ (extractFrames (acc.2 ++ chunks.flatten)).1,
         (extractFrames (acc.2 ++ chunks.flatten)).2) := by
  induction chunks with
  | nil =>
    intro acc hacc
    rw [List.foldl_nil, List.flatten_nil, List.append_nil, extractFrames_eq_none hacc]
    simp
  | cons c cs ih =>
    intro acc hacc
    rw [List.foldl_cons]
    have hres : findFrame (feedChunk acc c).2 = none :=
      findFrame_extractFrames_none (acc.2 ++ c)
    rw [ih (feedChunk acc c) hres]
    simp only [feedChunk, List.flatten_cons]
    rw [← List.append_assoc, extractFrames_append (acc.2 ++ c) cs.flatten]
    simp [List.append_assoc]

/-- C2: the candidate frames yielded by the socket-data frame decoder do
not depend on how the byte stream is partitioned into chunks (feeding any
chunk list is the same as feeding the concatenation); a brace inside a
quoted string — escaped or not — steps the scan exactly like any ordinary
character, leaving the depth untouched; and a buffer whose first opening
brace has no matching close yet is left untouched with no frame emitted. -/
theorem frame_decoder_properties :
    (∀ chunks : List (List Char),
        chunks.foldl feedChunk ([], []) = extractFrames chunks.flatten)
    ∧ (∀ (rest : List Char) (d : Int),
        scanClose ('\x7b' :: rest) d true false = (scanClose rest d true false).map (· + 1)
        ∧ scanClose ('\x7d' :: rest) d true false = (scanClose rest d true false).map (· + 1))
    ∧ (∀ (c : Char) (rest : List Char) (d : Int),
        scanClose (c :: rest) d true true = (scanClose rest d true false).map (· + 1))
    ∧ (∀ buffer : List Char, findFrame buffer = none →
        extractFrames buffer = ([], buffer)) := by
  refine ⟨?_, ?_, ?_, ?_⟩
  · intro chunks
    have h := foldl_feedChunk chunks ([], []) rfl
    simpa using h
  · intro rest d
    constructor <;> rfl
  · intro c rest d
    rfl
  · intro buffer h
    exact extractFrames_eq_none h

/-- Witness for C2: chunk invariance applied to a concrete two-chunk split
of a frame, and a concrete incomplete frame left in the buffer. -/
theorem frame_decoder_properties_witness :
    (["ju".toList, "nk\x7b\"a\":\"\x7d\"\x7dx".toList].foldl feedChunk ([], [])
        = extractFrames (["ju".toList, "nk\x7b\"a\":\"\x7d\"\x7dx".toList].flatten))
    ∧ extractFrames ("pre\x7b\"open".toList) = ([], "pre\x7b\"open".toList) :=
  ⟨frame_decoder_properties.1 ["ju".toList, "nk\x7b\"a\":\"\x7d\"\x7dx".toList],
   frame_decoder_properties.2.2.2 ("pre\x7b\"open".toList) (by decide)⟩

example : parseJson ("\x7b\"level\":\"Log\",\"message\":\"hi\"\x7d".toList)
    = some [("level".toList, "Log".toList), ("message".toList, "hi".toList)] := by decide

example : parseJson ("\x7b\"a\":\"1\"".toList) = none := by decide

example : decodeFrame ("\x7b\"level\":\"Log\"\x7d".toList)
    = some ⟨none, some "Log".toList, none, none, none⟩ := by decide

/-- C4, counterexample: the frame `{}` parses as JSON with all four
required fields absent, and the data handler still hands it to the
add-log callback — it reaches the store instead of being rejected. -/
theorem decode_missing_fields_counterexample :
    decodeFrame ("\x7b\x7d".toList) = some ⟨none, none, none, none, none⟩
    ∧ handleFrame [] [] ("\x7b\x7d".toList) = ([⟨none, none, none, none, none⟩], [])
    ∧ (⟨none, none, none, none, none⟩ : DecodedEntry).date = none := by
  refine ⟨by decide, by decide, rfl⟩

/-- C4 (amended): a frame whose bytes fail to parse as JSON is discarded
with a diagnostic side-channel notification and never reaches the store;
but a frame that parses as JSON is appended to the store via the callback
regardless of which fields are present — no required-field validation
happens at decode time. -/
theorem decode_no_field_validation :
    (∀ (store : List DecodedEntry) (diags : List (List Char)) (frame : List Char)
        (e : DecodedEntry), decodeFrame frame = some e →
        handleFrame store diags frame = (store ++ [e], diags))
    ∧ (∀ (store : List DecodedEntry) (diags : List (List Char)) (frame : List Char),
        decodeFrame frame = none →
        handleFrame store diags frame = (store, diags ++ [frame])) := by
  constructor
  · intro store diags frame e h
    simp [handleFrame, h]
  · intro store diags frame h
    simp [handleFrame, h]

/-- Witness for C4: the frame `{}` is appended despite missing every
field, and the unterminated frame `{` is dropped with a diagnostic. -/
theorem decode_no_field_validation_witness :
    handleFrame [] [] ("\x7b\x7d".toList) = ([⟨none, none, none, none, none⟩], [])
    ∧ handleFrame [] [] ("\x7b".toList) = ([], ["\x7b".toList]) :=
  ⟨decode_no_field_validation.1 [] [] ("\x7b\x7d".toList) ⟨none, none, none, none, none⟩
      (by decide),
   decode_no_field_validation.2 [] [] ("\x7b".toList) (by decide)⟩

end UnrealLog
